import Mathlib

/-!
Shallow embedding of two source files of the Backstage repository:

* `packages/core/src/api/app/App.tsx` — the app factory `createApp`, the
  `AppImpl` class with `getRootComponent` and `verify`;
* `plugins/scaffolder-backend/src/scaffolder/stages/prepare/github.ts` —
  the `GithubPreparer.prepare` workflow.

React components, theme objects and icon components are opaque values to
this code: they are modelled as small inductive types carrying enough
structure to distinguish the fixed built-ins (`LoginPage`, the default
404 page, `lightTheme`) from user-supplied values.  Effectful steps of
`prepare` (git clone, fs move, fs rmdir) are modelled by passing in each
step's outcome and recording the attempted actions in a trace.
-/

namespace Backstage

/-- Opaque renderable component.  `loginPage` is the built-in `LoginPage`,
`errorPage s m` is `<ErrorPage status={s} statusMessage={m}/>`, `custom n`
stands for any user-supplied component. -/
inductive Component where
  | loginPage
  | errorPage (status : String) (statusMessage : String)
  | custom (n : Nat)
deriving DecidableEq, Repr

/-- The `DefaultNotFoundPage` constant of `createApp`:
`() => <ErrorPage status="404" statusMessage="PAGE NOT FOUND" />`. -/
def DefaultNotFoundPage : Component := Component.errorPage "404" "PAGE NOT FOUND"

/-- Opaque theme object.  `lightTheme` is the constant imported from the
theme package; `custom n` stands for any user-supplied theme object. -/
inductive ThemeObj where
  | lightTheme
  | custom (n : Nat)
deriving DecidableEq, Repr

/-- Theme variant strings accepted by `AppTheme.variant`. -/
inductive ThemeVariant where
  | light
  | dark
deriving DecidableEq, Repr

/-- `AppTheme`: `{id, title, variant, theme}`. -/
structure AppTheme where
  id : String
  title : String
  variant : ThemeVariant
  theme : ThemeObj
deriving DecidableEq, Repr

/-- The route options object destructured as `const { exact = true } = options`. -/
structure RouteOptions where
  exact : Option Bool
deriving DecidableEq, Repr

/-- A nav target, of which only `.path` is read by `getRootComponent`. -/
structure NavTarget where
  path : String
deriving DecidableEq, Repr

/-- A plugin output descriptor: the tagged union switched on by
`getRootComponent` via `output.type`.  `unknown tag` stands for any
descriptor whose `type` string is none of the four recognized ones
(the `default: break` arm). -/
inductive Output where
  | route (path : String) (component : Component) (options : Option RouteOptions)
  | navTargetComponent (target : NavTarget) (component : Component)
      (options : Option RouteOptions)
  | redirectRoute (path : String) (target : String) (options : Option RouteOptions)
  | featureFlag (name : String)
  | unknown (tag : String)
deriving DecidableEq, Repr

/-- A `BackstagePlugin`, reduced to what `App.tsx` reads from it:
`getId()` and `output()`. -/
structure Plugin where
  id : String
  outputs : List Output
deriving DecidableEq, Repr

/-- A `FeatureFlagsRegistryItem`: `{pluginId, name}`. -/
structure FeatureFlagsRegistryItem where
  pluginId : String
  name : String
deriving DecidableEq, Repr

/-- The feature-flags API object, holding its mutable
`registeredFeatureFlags` field as explicit state. -/
structure FeatureFlagsApi where
  registeredFeatureFlags : List FeatureFlagsRegistryItem
deriving DecidableEq, Repr

/-- The `ApiHolder`: the only lookup `App.tsx` performs is
`apis.get(featureFlagsApiRef)`, modelled by the `featureFlags` field
(`none` when no feature-flag provider capability is registered). -/
structure ApiHolder where
  featureFlags : Option FeatureFlagsApi
deriving DecidableEq, Repr

/-- `ApiRegistry.from([])`: the empty registry used as default `apis`;
it has no feature-flag provider. -/
def emptyApiRegistry : ApiHolder := { featureFlags := none }

/-- `SystemIcons`, modelled as an association list of icon key to opaque
icon component. -/
def SystemIcons := List (String × Nat)
deriving instance DecidableEq, Repr for SystemIcons

/-- The fixed `defaultSystemIcons` table (opaque contents). -/
def defaultSystemIcons : SystemIcons :=
  [("brokenImage", 0), ("user", 1), ("group", 2), ("warning", 3)]

/-- `AppComponents` as read by `AppImpl`: only `NotFoundErrorPage` is used. -/
structure AppComponents where
  NotFoundErrorPage : Component
deriving DecidableEq, Repr

/-- The `themes` option of `AppOptions`: either an explicit ordered
`AppTheme[]` or a `{light?, dark?}` pair object. -/
inductive ThemesOption where
  | list (themes : List AppTheme)
  | pair (light : Option ThemeObj) (dark : Option ThemeObj)
deriving DecidableEq, Repr

/-- `AppOptions`, all fields optional. -/
structure AppOptions where
  apis : Option ApiHolder := none
  icons : Option SystemIcons := none
  plugins : Option (List Plugin) := none
  components : Option AppComponents := none
  themes : Option ThemesOption := none
deriving DecidableEq, Repr

/-- The `FullAppOptions` record held by `AppImpl` (the `App` aggregate). -/
structure App where
  apis : ApiHolder
  icons : SystemIcons
  plugins : List Plugin
  components : AppComponents
  themes : List AppTheme
deriving DecidableEq, Repr

/-! ### Theme resolution in `createApp` -/

/-- The default theme pushed when `themes.length === 0`. -/
def defaultAppTheme : AppTheme :=
  { id := "light", title := "Default Theme", variant := ThemeVariant.light,
    theme := ThemeObj.lightTheme }

/-- The theme entry synthesized for `options.themes.light`. -/
def lightEntry (t : ThemeObj) : AppTheme :=
  { id := "light", title := "Light Theme", variant := ThemeVariant.light, theme := t }

/-- The theme entry synthesized for `options.themes.dark`. -/
def darkEntry (t : ThemeObj) : AppTheme :=
  { id := "dark", title := "Dark Theme", variant := ThemeVariant.dark, theme := t }

/-- The theme-resolution block of `createApp` (lines 185-214): push the
explicit list verbatim when `Array.isArray(options?.themes)`, otherwise
push a light and/or dark entry for the present halves of the pair; then,
if still empty, push the single default theme. -/
def resolveThemes (o : Option ThemesOption) : List AppTheme :=
  let themes : List AppTheme :=
    match o with
    | some (ThemesOption.list ts) => ts
    | some (ThemesOption.pair l d) =>
        (match l with
         | some t => [lightEntry t]
         | none => []) ++
        (match d with
         | some t => [darkEntry t]
         | none => [])
    | none => []
  if themes.length = 0 then themes ++ [defaultAppTheme] else themes

/-! ### `AppImpl.verify` -/

/-- The error message template `Duplicate plugin found '${id}'`. -/
def dupMsg (id : String) : String :=
  "Duplicate plugin found '" ++ id ++ "'"

/-- The loop body of `verify()`: walk the plugins carrying the
`pluginIds` set (as a list), threading the `AppImpl` state through each
iteration as the method receiver; throw on the first id already seen. -/
def verifyLoop : List Plugin → List String → App → Except String Unit × App
  | [], _, st => (Except.ok (), st)
  | p :: rest, seen, st =>
      if p.id ∈ seen then (Except.error (dupMsg p.id), st)
      else verifyLoop rest (seen ++ [p.id]) st

/-- `AppImpl.verify()`, returning the outcome together with the
post-call receiver state. -/
def verifySt (app : App) : Except String Unit × App :=
  verifyLoop app.plugins [] app

/-- The outcome of `AppImpl.verify()`. -/
def verify (app : App) : Except String Unit :=
  (verifySt app).1

/-- The id of the first plugin whose id already occurred earlier in the
list: the id named by `verify`'s error.  Defined by a left scan with the
set of previously seen ids. -/
def firstDuplicateAux : List String → List String → Option String
  | _, [] => none
  | seen, x :: xs => if x ∈ seen then some x else firstDuplicateAux (seen ++ [x]) xs

/-- First duplicated id of a list, if any. -/
def firstDuplicate (l : List String) : Option String :=
  firstDuplicateAux [] l

/-! ### `createApp` -/

/-- JavaScript object-spread merge `{...base, ...override}` on the
association-list model of `SystemIcons`: keys of `base` keep their
position but take the override's value when present; new override keys
follow. -/
def spreadMerge (base override : SystemIcons) : SystemIcons :=
  (base.map fun kv =>
    match override.lookup kv.1 with
    | some v => (kv.1, v)
    | none => kv) ++
  override.filter fun kv => (base.lookup kv.1).isNone

/-- The field-defaulting part of `createApp(options?)` (lines 178-216):
each field is resolved independently, then `AppImpl` is constructed. -/
def buildApp (options : Option AppOptions) : App :=
  let apis := (options.bind AppOptions.apis).getD emptyApiRegistry
  let icons := spreadMerge defaultSystemIcons ((options.bind AppOptions.icons).getD [])
  let plugins := (options.bind AppOptions.plugins).getD []
  let components :=
    (options.bind AppOptions.components).getD { NotFoundErrorPage := DefaultNotFoundPage }
  let themes := resolveThemes (options.bind AppOptions.themes)
  { apis := apis, icons := icons, plugins := plugins,
    components := components, themes := themes }

/-- `createApp(options?)`: construct the `AppImpl`, run `verify()`, and
return the app; a `verify` error propagates and no app is returned. -/
def createApp (options : Option AppOptions) : Except String App :=
  let app := buildApp options
  match verify app with
  | Except.ok _ => Except.ok app
  | Except.error e => Except.error e

/-! ### `AppImpl.getRootComponent` -/

/-- An element pushed onto the `routes` array (or appended after it in
the final `<Switch>`): a `<Route>` with key, path, component and exact
flag, a `<Redirect>` with key, path, target and exact flag, or the
path-less catch-all `<Route component={NotFoundErrorPage}/>`. -/
inductive RouteElem where
  | routeEl (key : String) (path : String) (component : Component) (exact : Bool)
  | redirectEl (key : String) (path : String) (target : String) (exact : Bool)
  | catchAll (component : Component)
deriving DecidableEq, Repr

/-- The double default `const { options = {} } = output` followed by
`const { exact = true } = options`. -/
def exactOf (options : Option RouteOptions) : Bool :=
  match options with
  | none => true
  | some o =>
      match o.exact with
      | none => true
      | some b => b

/-- One iteration of the inner `switch` of `getRootComponent`, acting on
the accumulated `(routes, registeredFeatureFlags)` pair. -/
def stepOutput (pluginId : String) (acc : List RouteElem × List FeatureFlagsRegistryItem) :
    Output → List RouteElem × List FeatureFlagsRegistryItem
  | Output.route path component options =>
      (acc.1 ++ [RouteElem.routeEl path path component (exactOf options)], acc.2)
  | Output.navTargetComponent target component options =>
      (acc.1 ++ [RouteElem.routeEl (pluginId ++ "-" ++ target.path) target.path
        component (exactOf options)], acc.2)
  | Output.redirectRoute path target options =>
      (acc.1 ++ [RouteElem.redirectEl path path target (exactOf options)], acc.2)
  | Output.featureFlag name =>
      (acc.1, acc.2 ++ [{ pluginId := pluginId, name := name }])
  | Output.unknown _ => acc

/-- The inner `for (const output of plugin.output())` loop. -/
def loopOutputs (pluginId : String) (outs : List Output)
    (acc : List RouteElem × List FeatureFlagsRegistryItem) :
    List RouteElem × List FeatureFlagsRegistryItem :=
  outs.foldl (stepOutput pluginId) acc

/-- The outer `for (const plugin of this.plugins.values())` loop,
starting from empty `routes` and `registeredFeatureFlags` arrays. -/
def loopPlugins (plugins : List Plugin) :
    List RouteElem × List FeatureFlagsRegistryItem :=
  plugins.foldl (fun acc p => loopOutputs p.id p.outputs acc) ([], [])

/-- The route entries contributed by a single output descriptor. -/
def outputRoutes (pluginId : String) (o : Output) : List RouteElem :=
  (stepOutput pluginId ([], []) o).1

/-- The feature-flag registry items contributed by a single output
descriptor. -/
def outputFlags (pluginId : String) (o : Output) : List FeatureFlagsRegistryItem :=
  (stepOutput pluginId ([], []) o).2

/-- The feature flags collected by one root-component build, in plugin
order then output order. -/
def collectFlags (plugins : List Plugin) : List FeatureFlagsRegistryItem :=
  (loopPlugins plugins).2

/-- The fixed `<Route key="login" path="/login" component={LoginPage} exact/>`. -/
def loginRoute : RouteElem :=
  RouteElem.routeEl "login" "/login" Component.loginPage true

/-- What a `getRootComponent()` call produces: the ordered route list of
the final `<Switch>` (the pushed routes, then the login route pushed
after the loop, then the catch-all appended in the JSX), the updated
`ApiHolder` after the conditional write to
`FeatureFlags.registeredFeatureFlags`, and whether the switch was
wrapped in an `ApiProvider`. -/
structure BuildResult where
  routes : List RouteElem
  apis : ApiHolder
  wrappedInProvider : Bool
deriving DecidableEq, Repr

/-- `AppImpl.getRootComponent()` (lines 71-148). -/
def getRootComponent (app : App) : BuildResult :=
  let acc := loopPlugins app.plugins
  let routes := acc.1
  let registeredFeatureFlags := acc.2
  let apis :=
    match app.apis.featureFlags with
    | some _ => { app.apis with
        featureFlags := some { registeredFeatureFlags := registeredFeatureFlags } }
    | none => app.apis
  let routes := routes ++ [loginRoute]
  let routes := routes ++ [RouteElem.catchAll app.components.NotFoundErrorPage]
  { routes := routes, apis := apis, wrappedInProvider := true }

/-! ### `GithubPreparer.prepare` -/

/-- The fields of a `git-url-parse` result that `prepare` reads:
`filepath` (the subpath inside the repository, empty when absent),
`ref` (the git ref, empty when absent), and the result of
`.toString('https')`. -/
structure ParsedGitUrl where
  filepath : String
  ref : String
  httpsUrl : String
deriving DecidableEq, Repr

/-- `PreparerOptions` as read by `prepare` (the logger is opaque and
carries no state relevant here). -/
structure PreparerOptions where
  url : String
  workspacePath : String
deriving DecidableEq, Repr

/-- The `GithubPreparer` constructor argument `{ token?: string }`. -/
structure GithubPreparerConfig where
  token : Option String
deriving DecidableEq, Repr

/-- The authentication the clone runs with: `Git.fromAuth` with a
username/password pair, or `Git.fromAuth({logger})` alone. -/
inductive GitAuth where
  | withAuth (username : String) (password : String)
  | anonymous
deriving DecidableEq, Repr

/-- `path.join(a, b)` for a plain relative segment `b`. -/
def pathJoin (a b : String) : String := a ++ "/" ++ b

/-- `path.resolve(base, sub)` for an absolute `base` and a relative
`sub`; resolving the empty string yields `base` itself. -/
def pathResolve (base sub : String) : String :=
  if sub = "" then base else base ++ "/" ++ sub

/-- The ternary on `this.config.token` (JavaScript truthiness: an absent
token and the empty-string token are both falsy). -/
def authOfConfig (cfg : GithubPreparerConfig) : GitAuth :=
  match cfg.token with
  | some t => if t = "" then GitAuth.anonymous else GitAuth.withAuth t "x-oauth-basic"
  | none => GitAuth.anonymous

/-- An effectful step attempted by `prepare`, with its arguments. -/
inductive PrepareAction where
  | clone (url : String) (dir : String) (ref : String) (auth : GitAuth)
  | move (src : String) (dst : String)
  | rmdir (path : String)
deriving DecidableEq, Repr

/-- Outcome handed back by one effectful step. -/
inductive StepResult where
  | ok
  | err (e : String)
deriving DecidableEq, Repr

/-- `GithubPreparer.prepare({url, workspacePath, logger})`, with the
external world abstracted: `parse` models the `git-url-parse` library,
and `cloneRes`, `moveRes`, `rmdirRes` are the outcomes of the three
awaited effectful calls.  Returns the trace of attempted actions in
order and the overall outcome.  A clone or move error aborts the
sequence and propagates; the `fs.rmdir` of `targetPath/.git` sits in a
`try { } catch { }` whose catch arm is empty, so its outcome is
discarded. -/
def prepare (cfg : GithubPreparerConfig) (parse : String → ParsedGitUrl)
    (opts : PreparerOptions) (cloneRes moveRes rmdirRes : StepResult) :
    List PrepareAction × Except String Unit :=
  let parsedGitUrl := parse opts.url
  let checkoutPath := pathJoin opts.workspacePath "checkout"
  let targetPath := pathJoin opts.workspacePath "template"
  let fullPathToTemplate := pathResolve checkoutPath parsedGitUrl.filepath
  let git := authOfConfig cfg
  let cloneAct := PrepareAction.clone parsedGitUrl.httpsUrl checkoutPath parsedGitUrl.ref git
  match cloneRes with
  | StepResult.err e => ([cloneAct], Except.error e)
  | StepResult.ok =>
      let moveAct := PrepareAction.move fullPathToTemplate targetPath
      match moveRes with
      | StepResult.err e => ([cloneAct, moveAct], Except.error e)
      | StepResult.ok =>
          let rmdirAct := PrepareAction.rmdir (pathJoin targetPath ".git")
          match rmdirRes with
          | _ => ([cloneAct, moveAct, rmdirAct], Except.ok ())

/-- Whether an output descriptor carries an unrecognized tag. -/
def isUnknownOutput : Output → Bool
  | Output.unknown _ => true
  | _ => false

/-- A plugin with its unrecognized-tag outputs removed. -/
def eraseUnknownOutputs (p : Plugin) : Plugin :=
  { p with outputs := p.outputs.filter fun o => ! isUnknownOutput o }

/-! ## Helper lemmas -/

theorem stepOutput_eq (pluginId : String)
    (acc : List RouteElem × List FeatureFlagsRegistryItem) (o : Output) :
    stepOutput pluginId acc o =
      (acc.1 ++ outputRoutes pluginId o, acc.2 ++ outputFlags pluginId o) := by
  cases o <;> simp [stepOutput, outputRoutes, outputFlags]

theorem loopOutputs_eq (pluginId : String) (outs : List Output)
    (acc : List RouteElem × List FeatureFlagsRegistryItem) :
    loopOutputs pluginId outs acc =
      (acc.1 ++ outs.flatMap (outputRoutes pluginId),
       acc.2 ++ outs.flatMap (outputFlags pluginId)) := by
  induction outs generalizing acc with
  | nil => simp [loopOutputs]
  | cons o rest ih =>
      rw [loopOutputs, List.foldl_cons, ← loopOutputs, ih, stepOutput_eq]
      simp [List.flatMap_cons]

theorem loopPluginsFrom_eq (plugins : List Plugin)
    (acc : List RouteElem × List FeatureFlagsRegistryItem) :
    plugins.foldl (fun a p => loopOutputs p.id p.outputs a) acc =
      (acc.1 ++ plugins.flatMap (fun p => p.outputs.flatMap (outputRoutes p.id)),
       acc.2 ++ plugins.flatMap (fun p => p.outputs.flatMap (outputFlags p.id))) := by
  induction plugins generalizing acc with
  | nil => simp
  | cons p rest ih =>
      rw [List.foldl_cons, ih, loopOutputs_eq]
      simp [List.flatMap_cons]

theorem loopPlugins_eq (plugins : List Plugin) :
    loopPlugins plugins =
      (plugins.flatMap (fun p => p.outputs.flatMap (outputRoutes p.id)),
       plugins.flatMap (fun p => p.outputs.flatMap (outputFlags p.id))) := by
  rw [loopPlugins, loopPluginsFrom_eq]
  simp

theorem verifyLoop_snd (plugins : List Plugin) (seen : List String) (st : App) :
    (verifyLoop plugins seen st).2 = st := by
  induction plugins generalizing seen with
  | nil => rfl
  | cons p rest ih =>
      rw [verifyLoop]
      split
      · rfl
      · exact ih _

theorem verifyLoop_fst (plugins : List Plugin) (seen : List String) (st : App) :
    (verifyLoop plugins seen st).1 =
      match firstDuplicateAux seen (plugins.map Plugin.id) with
      | none => Except.ok ()
      | some d => Except.error (dupMsg d) := by
  induction plugins generalizing seen with
  | nil => rfl
  | cons p rest ih =>
      rw [verifyLoop, List.map_cons, firstDuplicateAux]
      split
      · simp_all
      · exact ih _

theorem firstDuplicateAux_eq_none (l : List String) :
    ∀ seen : List String, l.Nodup → (∀ x ∈ l, x ∉ seen) →
      firstDuplicateAux seen l = none := by
  induction l with
  | nil => intro seen _ _; rfl
  | cons x xs ih =>
      intro seen hnd hdisj
      rw [firstDuplicateAux, if_neg (hdisj x (List.mem_cons_self x xs))]
      refine ih (seen ++ [x]) (List.Nodup.of_cons hnd) ?_
      intro y hy
      simp only [List.mem_append, List.mem_singleton]
      rintro (hseen | hx)
      · exact hdisj y (List.mem_cons_of_mem x hy) hseen
      · exact (List.nodup_cons.mp hnd).1 (hx ▸ hy)

theorem firstDuplicateAux_some (l : List String) :
    ∀ (seen : List String) (d : String), seen.Nodup →
      firstDuplicateAux seen l = some d →
      ∃ pre rest, l = pre ++ d :: rest ∧ (seen ++ pre).Nodup ∧ d ∈ seen ++ pre := by
  induction l with
  | nil => intro seen d _ h; exact absurd h (by simp [firstDuplicateAux])
  | cons x xs ih =>
      intro seen d hseen h
      rw [firstDuplicateAux] at h
      by_cases hx : x ∈ seen
      · rw [if_pos hx] at h
        obtain rfl : x = d := Option.some.inj h
        exact ⟨[], xs, by simp, by simpa using hseen, by simpa using hx⟩
      · rw [if_neg hx] at h
        have hseen' : (seen ++ [x]).Nodup := by
          simp [List.nodup_append, hseen, hx]
        obtain ⟨pre, rest, hl, hnd, hmem⟩ := ih (seen ++ [x]) d hseen' h
        refine ⟨x :: pre, rest, by simp [hl], ?_, ?_⟩
        · simpa [List.append_assoc] using hnd
        · simpa [List.append_assoc] using hmem

theorem nodup_of_firstDuplicateAux_none (l : List String) :
    ∀ seen : List String, firstDuplicateAux seen l = none →
      l.Nodup ∧ ∀ x ∈ l, x ∉ seen := by
  induction l with
  | nil => intro seen _; simp
  | cons x xs ih =>
      intro seen h
      rw [firstDuplicateAux] at h
      by_cases hx : x ∈ seen
      · rw [if_pos hx] at h; exact absurd h (by simp)
      · rw [if_neg hx] at h
        obtain ⟨hnd, hdisj⟩ := ih (seen ++ [x]) h
        have hxxs : x ∉ xs := fun hmem => hdisj x hmem (by simp)
        refine ⟨List.nodup_cons.mpr ⟨hxxs, hnd⟩, ?_⟩
        intro y hy
        rcases List.mem_cons.mp hy with hyx | hyxs
        · exact hyx ▸ hx
        · intro hys
          exact hdisj y hyxs (by simp [hys])

theorem firstDuplicate_of_not_nodup (l : List String) (h : ¬ l.Nodup) :
    ∃ d, firstDuplicate l = some d := by
  rcases he : firstDuplicate l with _ | d
  · exact absurd (nodup_of_firstDuplicateAux_none l [] he).1 h
  · exact ⟨d, rfl⟩

theorem verify_eq_match (app : App) :
    verify app =
      match firstDuplicate (app.plugins.map Plugin.id) with
      | none => Except.ok ()
      | some d => Except.error (dupMsg d) :=
  verifyLoop_fst app.plugins [] app

/-! ## Claim theorems -/

/-- C1 counterexample: the claim asserts that every explicit ordered
theme list of length N is used unchanged, but for the explicit empty
list (N = 0) `createApp` substitutes the single default theme, because
the `themes.length === 0` fallback runs after the explicit list was
copied. -/
theorem createApp_empty_theme_list_cex :
    (buildApp (some { themes := some (ThemesOption.list []) })).themes
        = [defaultAppTheme]
      ∧ (buildApp (some { themes := some (ThemesOption.list []) })).themes
        ≠ ([] : List AppTheme) := by
  refine ⟨rfl, ?_⟩
  decide

/-- C1 (amended): supplying `themes: {light: T1}` alone yields exactly
the one entry `{id:'light', title:'Light Theme', variant:'light',
theme:T1}`; supplying neither `light` nor `dark` nor an explicit list
(themes absent, or an empty pair) yields exactly the one default light
theme; an explicit NONEMPTY ordered list is used exactly as supplied,
while the explicit empty list yields the single default light theme.
The construction also survives `verify`, so `createApp` returns it. -/
theorem createApp_theme_resolution (t : ThemeObj) (ts : List AppTheme)
    (hts : ts ≠ []) :
    (buildApp (some { themes := some (ThemesOption.pair (some t) none) })).themes
        = [{ id := "light", title := "Light Theme",
             variant := ThemeVariant.light, theme := t }]
      ∧ (buildApp none).themes = [defaultAppTheme]
      ∧ (buildApp (some { themes := none })).themes = [defaultAppTheme]
      ∧ (buildApp (some { themes := some (ThemesOption.pair none none) })).themes
        = [defaultAppTheme]
      ∧ (buildApp (some { themes := some (ThemesOption.list ts) })).themes = ts
      ∧ (buildApp (some { themes := some (ThemesOption.list []) })).themes
        = [defaultAppTheme]
      ∧ createApp (some { themes := some (ThemesOption.list ts) })
        = Except.ok (buildApp (some { themes := some (ThemesOption.list ts) })) := by
  refine ⟨rfl, rfl, rfl, rfl, ?_, rfl, rfl⟩
  show (if ts.length = 0 then ts ++ [defaultAppTheme] else ts) = ts
  rw [if_neg (by simpa [List.length_eq_zero] using hts)]

/-- Witness for `createApp_theme_resolution` at `t := lightTheme`,
`ts := [defaultAppTheme]`. -/
theorem createApp_theme_resolution_witness :
    (buildApp (some { themes := some (ThemesOption.list [defaultAppTheme]) })).themes
      = [defaultAppTheme] :=
  (createApp_theme_resolution ThemeObj.lightTheme [defaultAppTheme]
    (by decide)).2.2.2.2.1

/-- C10: a light/dark pair with both halves present yields exactly two
entries, light first (`id 'light'`, title `'Light Theme'`, variant
light) then dark (`id 'dark'`, title `'Dark Theme'`, variant dark). -/
theorem createApp_light_dark_pair (l d : ThemeObj) :
    (buildApp (some { themes := some (ThemesOption.pair (some l) (some d)) })).themes
      = [{ id := "light", title := "Light Theme",
           variant := ThemeVariant.light, theme := l },
         { id := "dark", title := "Dark Theme",
           variant := ThemeVariant.dark, theme := d }] := rfl

/-- C2: with pairwise-distinct plugin ids `verify()` succeeds; with a
repeated id it fails with `Duplicate plugin found '<d>'` where `<d>` is
the first duplicated id (the id at the first position whose id already
occurred in the duplicate-free prefix before it), and `createApp` does
not return an `Application`. -/
theorem verify_duplicate_plugin_ids (app : App) (opts : Option AppOptions) :
    ((app.plugins.map Plugin.id).Nodup → verify app = Except.ok ())
      ∧ (¬ (app.plugins.map Plugin.id).Nodup →
          ∃ d pre rest, app.plugins.map Plugin.id = pre ++ d :: rest
            ∧ pre.Nodup ∧ d ∈ pre ∧ verify app = Except.error (dupMsg d))
      ∧ (¬ ((buildApp opts).plugins.map Plugin.id).Nodup →
          ∀ a : App, createApp opts ≠ Except.ok a) := by
  have key : ∀ b : App, ¬ (b.plugins.map Plugin.id).Nodup →
      ∃ d pre rest, b.plugins.map Plugin.id = pre ++ d :: rest
        ∧ pre.Nodup ∧ d ∈ pre ∧ verify b = Except.error (dupMsg d) := by
    intro b hb
    obtain ⟨d, hd⟩ := firstDuplicate_of_not_nodup _ hb
    obtain ⟨pre, rest, hsplit, hnd, hmem⟩ :=
      firstDuplicateAux_some (b.plugins.map Plugin.id) [] d (by simp) hd
    refine ⟨d, pre, rest, hsplit, by simpa using hnd, by simpa using hmem, ?_⟩
    rw [verify_eq_match, hd]
  refine ⟨?_, key app, ?_⟩
  · intro hnd
    have hnone : firstDuplicate (app.plugins.map Plugin.id) = none :=
      firstDuplicateAux_eq_none _ [] hnd (by simp)
    rw [verify_eq_match, hnone]
  · intro hb a
    obtain ⟨d, _, _, _, _, _, hver⟩ := key (buildApp opts) hb
    simp [createApp, hver]

/-- Witness for `verify_duplicate_plugin_ids`: a duplicate-free
two-plugin app verifies, and `createApp` on two plugins both named
`"a"` returns no app. -/
theorem verify_duplicate_plugin_ids_witness :
    verify { apis := emptyApiRegistry, icons := [],
             plugins := [⟨"a", []⟩, ⟨"b", []⟩],
             components := ⟨DefaultNotFoundPage⟩, themes := [] }
        = Except.ok ()
      ∧ ∀ a : App,
          createApp (some { plugins := some [⟨"a", []⟩, ⟨"a", []⟩] })
            ≠ Except.ok a := by
  constructor
  · exact (verify_duplicate_plugin_ids
      { apis := emptyApiRegistry, icons := [],
        plugins := [⟨"a", []⟩, ⟨"b", []⟩],
        components := ⟨DefaultNotFoundPage⟩, themes := [] } none).1 (by decide)
  · exact (verify_duplicate_plugin_ids
      { apis := emptyApiRegistry, icons := [], plugins := [],
        components := ⟨DefaultNotFoundPage⟩, themes := [] }
      (some { plugins := some [⟨"a", []⟩, ⟨"a", []⟩] })).2.2 (by decide)

/-- C9: `verify()` never mutates the `AppImpl` receiver: all five fields
are unchanged by the call, whether it succeeds or throws (the threaded
receiver state is returned untouched in every branch of the loop). -/
theorem verify_no_mutation (app : App) :
    (verifySt app).2.apis = app.apis
      ∧ (verifySt app).2.icons = app.icons
      ∧ (verifySt app).2.plugins = app.plugins
      ∧ (verifySt app).2.components = app.components
      ∧ (verifySt app).2.themes = app.themes := by
  have h : (verifySt app).2 = app := verifyLoop_snd app.plugins [] app
  rw [h]
  exact ⟨rfl, rfl, rfl, rfl, rfl⟩

/-- C3: the route list of every root-component build is the
concatenation of each plugin's routes (plugins in installation order,
outputs in declaration order within a plugin), followed by exactly the
fixed `/login` route and then the catch-all not-found route as the last
two entries, in that fixed order. -/
theorem getRootComponent_route_order (app : App) :
    (getRootComponent app).routes =
      (app.plugins.flatMap fun p => p.outputs.flatMap (outputRoutes p.id))
        ++ [loginRoute, RouteElem.catchAll app.components.NotFoundErrorPage] := by
  rcases h : app.apis.featureFlags with _ | ff <;>
    simp [getRootComponent, h, loopPlugins_eq]

/-- C4: after a root-component build, a registered feature-flag provider
holds exactly the flags collected from this build's plugin set in
plugin-then-output order, whatever its previous contents (full
replacement); with no provider registered, the api holder is untouched. -/
theorem getRootComponent_feature_flags (app : App) :
    (app.apis.featureFlags = none → (getRootComponent app).apis = app.apis)
      ∧ (∀ prev, app.apis.featureFlags = some prev →
          (getRootComponent app).apis.featureFlags
            = some { registeredFeatureFlags :=
                app.plugins.flatMap fun p => p.outputs.flatMap (outputFlags p.id) }) := by
  constructor
  · intro h
    simp [getRootComponent, h]
  · intro prev h
    simp [getRootComponent, h, loopPlugins_eq]

/-- Witness for `getRootComponent_feature_flags`: a build over one
plugin declaring one flag, against a provider holding a stale entry,
ends with exactly the new flag. -/
theorem getRootComponent_feature_flags_witness :
    (getRootComponent
        { apis := ⟨some ⟨[⟨"old", "stale"⟩]⟩⟩,
          icons := [], plugins := [⟨"p1", [Output.featureFlag "f1"]⟩],
          components := ⟨DefaultNotFoundPage⟩, themes := [] }).apis.featureFlags
      = some ⟨[⟨"p1", "f1"⟩]⟩ := by
  have h := (getRootComponent_feature_flags
    { apis := ⟨some ⟨[⟨"old", "stale"⟩]⟩⟩,
      icons := [], plugins := [⟨"p1", [Output.featureFlag "f1"]⟩],
      components := ⟨DefaultNotFoundPage⟩, themes := [] }).2
    ⟨[⟨"old", "stale"⟩]⟩ rfl
  simpa using h

/-- C6: each of the three route-producing descriptor kinds contributes
exactly one entry whose exact flag is `exactOf options`, which is `true`
when `options` is absent or has no `exact` field and is the supplied
boolean otherwise. -/
theorem route_exact_default (pluginId p tgt : String) (nav : NavTarget)
    (c : Component) (options : Option RouteOptions) (b : Bool) :
    outputRoutes pluginId (Output.route p c options)
        = [RouteElem.routeEl p p c (exactOf options)]
      ∧ outputRoutes pluginId (Output.navTargetComponent nav c options)
        = [RouteElem.routeEl (pluginId ++ "-" ++ nav.path) nav.path c
            (exactOf options)]
      ∧ outputRoutes pluginId (Output.redirectRoute p tgt options)
        = [RouteElem.redirectEl p p tgt (exactOf options)]
      ∧ exactOf none = true
      ∧ exactOf (some { exact := none }) = true
      ∧ exactOf (some { exact := some b }) = b :=
  ⟨rfl, rfl, rfl, rfl, rfl, rfl⟩

theorem filter_unknown_flatMap {β : Type} (g : Output → List β)
    (hg : ∀ tag, g (Output.unknown tag) = []) (outs : List Output) :
    (outs.filter fun o => ! isUnknownOutput o).flatMap g = outs.flatMap g := by
  induction outs with
  | nil => rfl
  | cons o rest ih =>
      cases o with
      | unknown tag =>
          show (rest.filter fun o => ! isUnknownOutput o).flatMap g
            = (Output.unknown tag :: rest).flatMap g
          rw [List.flatMap_cons, hg, ih, List.nil_append]
      | route p c opts =>
          show (Output.route p c opts :: rest.filter fun o => ! isUnknownOutput o).flatMap g
            = (Output.route p c opts :: rest).flatMap g
          rw [List.flatMap_cons, List.flatMap_cons, ih]
      | navTargetComponent t c opts =>
          show (Output.navTargetComponent t c opts ::
              rest.filter fun o => ! isUnknownOutput o).flatMap g
            = (Output.navTargetComponent t c opts :: rest).flatMap g
          rw [List.flatMap_cons, List.flatMap_cons, ih]
      | redirectRoute p t opts =>
          show (Output.redirectRoute p t opts ::
              rest.filter fun o => ! isUnknownOutput o).flatMap g
            = (Output.redirectRoute p t opts :: rest).flatMap g
          rw [List.flatMap_cons, List.flatMap_cons, ih]
      | featureFlag n =>
          show (Output.featureFlag n :: rest.filter fun o => ! isUnknownOutput o).flatMap g
            = (Output.featureFlag n :: rest).flatMap g
          rw [List.flatMap_cons, List.flatMap_cons, ih]

theorem eraseUnknown_routes (plugins : List Plugin) :
    (plugins.map eraseUnknownOutputs).flatMap
        (fun p => p.outputs.flatMap (outputRoutes p.id))
      = plugins.flatMap (fun p => p.outputs.flatMap (outputRoutes p.id)) := by
  induction plugins with
  | nil => rfl
  | cons p rest ih =>
      simp only [List.map_cons, List.flatMap_cons, ih]
      congr 1
      exact filter_unknown_flatMap (outputRoutes p.id) (fun _ => rfl) p.outputs

theorem eraseUnknown_flags (plugins : List Plugin) :
    (plugins.map eraseUnknownOutputs).flatMap
        (fun p => p.outputs.flatMap (outputFlags p.id))
      = plugins.flatMap (fun p => p.outputs.flatMap (outputFlags p.id)) := by
  induction plugins with
  | nil => rfl
  | cons p rest ih =>
      simp only [List.map_cons, List.flatMap_cons, ih]
      congr 1
      exact filter_unknown_flatMap (outputFlags p.id) (fun _ => rfl) p.outputs

/-- C8: a descriptor with an unrecognized tag is a complete no-op: the
switch iteration returns the accumulators unchanged, it contributes no
route entry and no feature flag, and deleting all unknown-tag outputs
from every plugin leaves the whole build (routes and flags) unchanged —
no error is ever produced, as the build is total. -/
theorem unknown_output_ignored (pluginId tag : String)
    (acc : List RouteElem × List FeatureFlagsRegistryItem)
    (plugins : List Plugin) :
    stepOutput pluginId acc (Output.unknown tag) = acc
      ∧ outputRoutes pluginId (Output.unknown tag) = []
      ∧ outputFlags pluginId (Output.unknown tag) = []
      ∧ loopPlugins (plugins.map eraseUnknownOutputs) = loopPlugins plugins := by
  refine ⟨rfl, rfl, rfl, ?_⟩
  rw [loopPlugins_eq, loopPlugins_eq, eraseUnknown_routes, eraseUnknown_flags]

/-- C5: a clone error is returned to the caller unmodified, with the
action trace stopping after the single clone attempt (no retry, no
cleanup); a move error is likewise returned unmodified with the trace
stopping after clone and move; an rmdir error is discarded — `prepare`
still succeeds and performs exactly the actions of a fully successful
run. -/
theorem prepare_error_propagation (cfg : GithubPreparerConfig)
    (parse : String → ParsedGitUrl) (opts : PreparerOptions)
    (e : String) (mv rm : StepResult) :
    (prepare cfg parse opts (StepResult.err e) mv rm).2 = Except.error e
      ∧ (prepare cfg parse opts (StepResult.err e) mv rm).1
        = (prepare cfg parse opts StepResult.ok StepResult.ok StepResult.ok).1.take 1
      ∧ (prepare cfg parse opts StepResult.ok (StepResult.err e) rm).2
        = Except.error e
      ∧ (prepare cfg parse opts StepResult.ok (StepResult.err e) rm).1
        = (prepare cfg parse opts StepResult.ok StepResult.ok StepResult.ok).1.take 2
      ∧ (prepare cfg parse opts StepResult.ok StepResult.ok (StepResult.err e)).2
        = Except.ok ()
      ∧ (prepare cfg parse opts StepResult.ok StepResult.ok (StepResult.err e)).1
        = (prepare cfg parse opts StepResult.ok StepResult.ok StepResult.ok).1 :=
  ⟨rfl, rfl, rfl, rfl, rfl, rfl⟩

/-- C7: every run computes `checkoutPath = workspacePath/checkout`,
`targetPath = workspacePath/template` and
`fullPathToTemplate = checkoutPath/subpath` (equal to `checkoutPath`
when the parsed subpath is empty); the clone always targets
`checkoutPath` with the parsed https URL and parsed ref, authenticating
with username equal to the token and the fixed placeholder password
`x-oauth-basic` when a (nonempty, hence JS-truthy) token is configured,
and anonymously otherwise. -/
theorem prepare_paths_and_auth (cfg : GithubPreparerConfig)
    (parse : String → ParsedGitUrl) (opts : PreparerOptions)
    (cl mv rm : StepResult) (t : String) :
    (prepare cfg parse opts cl mv rm).1.head?
        = some (PrepareAction.clone (parse opts.url).httpsUrl
            (pathJoin opts.workspacePath "checkout") (parse opts.url).ref
            (authOfConfig cfg))
      ∧ (prepare cfg parse opts StepResult.ok StepResult.ok StepResult.ok).1
        = [PrepareAction.clone (parse opts.url).httpsUrl
             (pathJoin opts.workspacePath "checkout") (parse opts.url).ref
             (authOfConfig cfg),
           PrepareAction.move
             (pathResolve (pathJoin opts.workspacePath "checkout")
               (parse opts.url).filepath)
             (pathJoin opts.workspacePath "template"),
           PrepareAction.rmdir
             (pathJoin (pathJoin opts.workspacePath "template") ".git")]
      ∧ ((parse opts.url).filepath = "" →
          pathResolve (pathJoin opts.workspacePath "checkout")
              (parse opts.url).filepath
            = pathJoin opts.workspacePath "checkout")
      ∧ (cfg.token = some t → t ≠ "" →
          authOfConfig cfg = GitAuth.withAuth t "x-oauth-basic")
      ∧ (cfg.token = none → authOfConfig cfg = GitAuth.anonymous)
      ∧ (cfg.token = some "" → authOfConfig cfg = GitAuth.anonymous) := by
  refine ⟨?_, rfl, ?_, ?_, ?_, ?_⟩
  · cases cl with
    | ok =>
        cases mv with
        | ok => cases rm <;> rfl
        | err e => rfl
    | err e => rfl
  · intro h
    rw [pathResolve, if_pos h]
  · intro h hne
    rw [authOfConfig, h]
    show (if t = "" then GitAuth.anonymous else GitAuth.withAuth t "x-oauth-basic")
      = GitAuth.withAuth t "x-oauth-basic"
    rw [if_neg hne]
  · intro h
    rw [authOfConfig, h]
  · intro h
    rw [authOfConfig, h]
    show (if "" = "" then GitAuth.anonymous else GitAuth.withAuth "" "x-oauth-basic")
      = GitAuth.anonymous
    rw [if_pos rfl]

/-- Witness for `prepare_paths_and_auth` at a concrete configured token,
an empty subpath, and a second application at an absent token. -/
theorem prepare_paths_and_auth_witness :
    (prepare ⟨some "tok"⟩
        (fun _ => ⟨"", "main", "https://example.com/org/repo.git"⟩)
        ⟨"u", "ws"⟩ StepResult.ok StepResult.ok StepResult.ok).1
      = [PrepareAction.clone "https://example.com/org/repo.git" "ws/checkout"
           "main" (GitAuth.withAuth "tok" "x-oauth-basic"),
         PrepareAction.move "ws/checkout" "ws/template",
         PrepareAction.rmdir "ws/template/.git"]
      ∧ authOfConfig ⟨some "tok"⟩ = GitAuth.withAuth "tok" "x-oauth-basic"
      ∧ authOfConfig ⟨none⟩ = GitAuth.anonymous := by
  have h := prepare_paths_and_auth ⟨some "tok"⟩
    (fun _ => ⟨"", "main", "https://example.com/org/repo.git"⟩)
    ⟨"u", "ws"⟩ StepResult.ok StepResult.ok StepResult.ok "tok"
  have h2 := prepare_paths_and_auth ⟨none⟩
    (fun _ => ⟨"", "main", "https://example.com/org/repo.git"⟩)
    ⟨"u", "ws"⟩ StepResult.ok StepResult.ok StepResult.ok "tok"
  have hauth := h.2.2.2.1 rfl (by decide)
  have hanon := h2.2.2.2.2.1 rfl
  refine ⟨?_, hauth, hanon⟩
  have htrace := h.2.1
  rw [htrace, hauth]
  rfl

end Backstage
